import Mathlib

/-!
Verification of the OCALT multi-agent scheduler (`scheduler/src/daemon.ts`,
v3 multi-agent variant, together with its channel modules
`channels/telegram.ts` and `channels/discord.ts`).

The development shallowly embeds, over `List Char` / `Nat`, the parts of the
code the claims are about:

* the `runJob` poll loop: log polling every 3000 ms, completion-marker
  detection, timeout budget, outcome classification (suppressed / timeout /
  ok), channel notification, and the ledger (`.state.json`) update;
* the command builder (`-p`, `--continue`, `--allowedTools` with JS
  truthiness-based layering of job/agent fields);
* the timeout-budget resolution `(job.timeout || agent.timeout || 120)`;
* the Telegram outbound path (single message truncated to 4096 chars) and the
  Discord outbound path (chunking into 2000-char messages);
* the Telegram message-routing map and its 500-entry pruning policy
  (`saveMessageMap`);
* the success/failure behavior of channel sends (`fetch`-level rejections
  versus API-level error responses) as it affects the ledger update.

JS strings are modelled as `List Char`; JS truthiness of optional string /
number / boolean fields is modelled explicitly (`none`, `some ""` and
`some 0` are falsy).
-/

-- ## Definitions

/-- JS `hay.includes(pat)`: `pat` occurs as a contiguous substring of `hay`. -/
def containsSub : List Char → List Char → Bool
  | [], pat => pat.isEmpty
  | c :: rest, pat => pat.isPrefixOf (c :: rest) || containsSub rest pat

/-- Whitespace as trimmed by `String.prototype.trim` (common ASCII cases). -/
def isWsChar (c : Char) : Bool :=
  c = ' ' || c = '\n' || c = '\t' || c = '\r'

/-- JS `s.trim()`: strip leading and trailing whitespace. -/
def trimWs (l : List Char) : List Char :=
  ((l.dropWhile isWsChar).reverse.dropWhile isWsChar).reverse

/-- JS `s.replace(pat, "")`: remove the first occurrence of `pat`, if any. -/
def removeFirst : List Char → List Char → List Char
  | [], _ => []
  | c :: rest, pat =>
    if pat.isPrefixOf (c :: rest) then (c :: rest).drop pat.length
    else c :: removeFirst rest pat

/-- The completion marker line appended by the wrapped shell command:
`"--- JOB COMPLETE ---"` in `runJob`. -/
def marker : List Char := "--- JOB COMPLETE ---".toList

/-- Poll interval of the v3 `runJob` wait loop: `pollInterval = 3000` ms. -/
def pollMs : Nat := 3000

/-- `isComplete` test of the poll loop at 0-indexed tick `k` (the tick fires
with the accumulated counter `elapsed = (k+1) * 3000` and reads the log file,
whose content as a function of elapsed milliseconds is `logAt`):
`logContent.includes("--- JOB COMPLETE ---") || elapsed >= timeoutMs`. -/
def completeAt (logAt : Nat → List Char) (timeoutMs k : Nat) : Bool :=
  containsSub (logAt ((k + 1) * pollMs)) marker || timeoutMs ≤ (k + 1) * pollMs

/-- Fuel-indexed search for the first completing tick at or after tick `k`. -/
def loopRun (logAt : Nat → List Char) (timeoutMs : Nat) : Nat → Nat → Nat
  | 0, k => k
  | fuel + 1, k => if completeAt logAt timeoutMs k then k else loopRun logAt timeoutMs fuel (k + 1)

/-- The tick at which the poll loop stops (the first tick whose `isComplete`
test passes; one always exists because `elapsed` eventually reaches
`timeoutMs`). -/
def stopTick (logAt : Nat → List Char) (timeoutMs : Nat) : Nat :=
  loopRun logAt timeoutMs (timeoutMs / pollMs + 1) 0

/-- Value of the `elapsed` counter at the tick where the poll loop stops. -/
def stopElapsed (logAt : Nat → List Char) (timeoutMs : Nat) : Nat :=
  (stopTick logAt timeoutMs + 1) * pollMs

/-- The captured output at completion:
`logContent.replace("--- JOB COMPLETE ---", "").trim()`. -/
def capturedOutput (logAt : Nat → List Char) (timeoutMs : Nat) : List Char :=
  trimWs (removeFirst (logAt (stopElapsed logAt timeoutMs)) marker)

/-- Terminal classification of a run.  (The TS `JobState.lastStatus` union
also names `"error"`, but the v3 `runJob` never assigns it, so it is not a
reachable outcome of the embedded classifier.) -/
inductive Status
  | ok
  | timeout
  | suppressed
deriving DecidableEq, Repr

/-- `job.suppressIfMatch && output.includes(job.suppressIfMatch)` with JS
truthiness: an absent field and the empty string are both falsy. -/
def shouldSuppress (sifm : Option String) (output : List Char) : Bool :=
  match sifm with
  | none => false
  | some s => !s.toList.isEmpty && containsSub output s.toList

/-- Outcome classification of the v3 `runJob` at the stopping tick, in source
order: `shouldSuppress` first, then `elapsed >= timeoutMs`, else ok. -/
def runOutcome (logAt : Nat → List Char) (timeoutMs : Nat) (sifm : Option String) : Status :=
  if shouldSuppress sifm (capturedOutput logAt timeoutMs) then .suppressed
  else if timeoutMs ≤ stopElapsed logAt timeoutMs then .timeout
  else .ok

-- ### Data model (config.json shapes, `daemon.ts` interfaces `Job` / `Agent`)

/-- The two job modes of the `mode` union `"continue" | "fresh"`. -/
inductive JobMode
  | cont
  | fresh
deriving DecidableEq, Repr

/-- The claim-relevant fields of the TS `Job` interface.  Optional TS fields
are `Option`s; `none` models an absent (`undefined`) field. -/
structure Job where
  name : String
  mode : JobMode
  prompt : String
  telegram : Option Bool
  discord : Option Bool
  suppressIfMatch : Option String
  interactive : Option Bool
  timeout : Option Nat
  allowedTools : Option String
deriving DecidableEq, Repr

/-- The claim-relevant fields of the TS `Agent` interface. -/
structure Agent where
  name : String
  workdir : String
  allowedTools : Option String
  timeout : Option Nat
deriving DecidableEq, Repr

/-- Channel portions of the global config, flattened: `tgEnabled` is the
truthiness of `config.telegram?.enabled`, `tgToken` is
`config.telegram.botToken` (empty = absent/falsy), and likewise for Discord. -/
structure ChannelsCfg where
  tgEnabled : Bool
  tgToken : String
  dcEnabled : Bool
  dcToken : String
deriving DecidableEq, Repr

-- ### Timeout-budget resolution (`(job.timeout || agent.timeout || 120)`)

/-- JS `x || d` for an optional numeric field: `undefined` and `0` are falsy. -/
def jsOrNum : Option Nat → Nat → Nat
  | none, d => d
  | some n, d => if n = 0 then d else n

/-- The effective timeout in seconds used by `runJob`:
`job.timeout || agent.timeout || 120`. -/
def effTimeoutSec (job : Job) (agent : Agent) : Nat :=
  jsOrNum job.timeout (jsOrNum agent.timeout 120)

/-- The whole-run classifier with the budget resolved from job and agent:
`timeoutMs = (job.timeout || agent.timeout || 120) * 1000`. -/
def runJobOutcome (logAt : Nat → List Char) (job : Job) (agent : Agent) : Status :=
  runOutcome logAt (effTimeoutSec job agent * 1000) job.suppressIfMatch

-- ### Command builder (`const args = ["-p", prompt]; ...`)

/-- JS truthiness of an optional string field (`undefined` and `""` falsy). -/
def jsTruthyStr : Option String → Bool
  | none => false
  | some s => !s.toList.isEmpty

/-- The allowlist value the builder pushes, when it pushes one:
`job.allowedTools || agent.allowedTools`, guarded by the same expression's
truthiness.  Returns `none` exactly when no `--allowedTools` flag is added. -/
def effAllow (jobTools agentTools : Option String) : Option String :=
  if jsTruthyStr jobTools then jobTools
  else if jsTruthyStr agentTools then agentTools
  else none

/-- The argument list built by the v3 `runJob` for the external CLI:
`["-p", prompt]`, then `--continue` if `mode === "continue"`, then
`--allowedTools` with the layered value if `job.allowedTools ||
agent.allowedTools` is truthy.  (`prompt` is the possibly context-augmented
prompt, passed separately from `job.prompt`.) -/
def buildArgs (prompt : String) (job : Job) (agent : Agent) : List String :=
  ["-p", prompt]
    ++ (if job.mode = .cont then ["--continue"] else [])
    ++ (match effAllow job.allowedTools agent.allowedTools with
        | some v => ["--allowedTools", v]
        | none => [])

-- ### Channel notification conditions and the per-outcome notification set

/-- The notification channels. -/
inductive Chan
  | telegram
  | discord
deriving DecidableEq, Repr

/-- Telegram notification guard of `runJob`:
`job.telegram !== false && config.telegram?.enabled && config.telegram.botToken`. -/
def tgCond (job : Job) (c : ChannelsCfg) : Bool :=
  (job.telegram != some false) && c.tgEnabled && !c.tgToken.toList.isEmpty

/-- Discord notification guard of `runJob`'s ok branch:
`job.discord !== false && config.discord?.enabled && config.discord.botToken
&& discordChannelMap` (`mapProvided` = the channel map argument is defined). -/
def dcCond (job : Job) (c : ChannelsCfg) (mapProvided : Bool) : Bool :=
  (job.discord != some false) && c.dcEnabled && !c.dcToken.toList.isEmpty && mapProvided

/-- Which channels the v3 `runJob` notifies for a given terminal
classification (`outNonempty` = the captured output is truthy, i.e. not
`""`): the timeout branch sends only a Telegram message; the ok branch sends
Telegram then Discord, each additionally guarded by `output`; the suppressed
branch sends nothing. -/
def notifChans (st : Status) (job : Job) (c : ChannelsCfg)
    (mapProvided outNonempty : Bool) : List Chan :=
  match st with
  | .timeout => if tgCond job c then [.telegram] else []
  | .ok =>
    (if tgCond job c && outNonempty then [.telegram] else [])
      ++ (if dcCond job c mapProvided && outNonempty then [.discord] else [])
  | .suppressed => []

-- ### Ledger (`.state.json` read-modify-write in `runJob`)

/-- One `JobState` ledger entry. -/
structure JobState where
  lastRun : Option String
  lastStatus : Option Status
  lastDuration : Option Nat
  runCount : Nat
deriving DecidableEq, Repr

/-- The persisted ledger: `"agent/job"` key to entry. -/
def Ledger : Type := String → Option JobState

/-- The `runJob` terminal update: read the entry (or `{ runCount: 0 }`), set
`lastRun`, `lastStatus`, `lastDuration`, increment `runCount`, write back. -/
def updateLedger (led : Ledger) (key : String) (st : Status) (dur : Nat)
    (now : String) : Ledger :=
  fun k =>
    if k = key then
      let old := (led key).getD ⟨none, none, none, 0⟩
      some ⟨some now, some st, some dur, old.runCount + 1⟩
    else led k

/-- `runCount` recorded for `key` (0 when the entry is absent, matching
`state[stateKey] || { runCount: 0 }`). -/
def runCountOf (led : Ledger) (key : String) : Nat :=
  ((led key).map JobState.runCount).getD 0

/-- N completed invocations in sequence, each with its own classification,
duration and timestamp. -/
def applyRuns (led : Ledger) (key : String) : List (Status × Nat × String) → Ledger
  | [] => led
  | r :: rs => applyRuns (updateLedger led key r.1 r.2.1 r.2.2) key rs

-- ### Channel send behavior and its effect on the ledger update

/-- Environment of one notification round: does the Telegram `fetch` resolve
(`tgTransportOk`), does the Telegram API answer `ok: true` (`tgApiOk`), and
do the Discord REST calls answer with `res.ok` (`dcHttpOk`, otherwise
`discordApi` throws). -/
structure SendWorld where
  tgTransportOk : Bool
  tgApiOk : Bool
  dcHttpOk : Bool
deriving DecidableEq, Repr

/-- Result of `telegram.ts` `sendAgentMessage`: a rejected `fetch` propagates
as an exception (`.error`); an API-level error response (`result.ok` false)
is logged and swallowed, returning `null` (`.ok none`). -/
def tgSendRes (w : SendWorld) : Except Unit (Option String) :=
  if w.tgTransportOk then .ok (if w.tgApiOk then some "msgid" else none)
  else .error ()

/-- Result of `discord.ts` `sendAgentMessage`: a missing channel-map entry is
logged and swallowed (`.ok none`); any non-ok REST response makes
`discordApi` throw, which propagates (`.error`). -/
def dcSendRes (w : SendWorld) (chanKnown : Bool) : Except Unit (Option String) :=
  if !chanKnown then .ok none
  else if w.dcHttpOk then .ok (some "msgid")
  else .error ()

/-- The notification-then-ledger-update tail of the v3 `runJob` for a given
terminal classification.  Sends are awaited before the ledger write; an
exception from a send escapes the polling callback and the ledger update
(and window cleanup and promise resolution) never run, modelled as
`.error ()`.  On a normal path the result is the updated ledger. -/
def runJobPersist (st : Status) (job : Job) (c : ChannelsCfg)
    (mapProvided chanKnown outNonempty : Bool) (w : SendWorld)
    (led : Ledger) (key : String) (dur : Nat) (now : String) : Except Unit Ledger :=
  match st with
  | .suppressed => .ok (updateLedger led key .suppressed dur now)
  | .timeout =>
    if tgCond job c then
      match tgSendRes w with
      | .error e => .error e
      | .ok _ => .ok (updateLedger led key .timeout dur now)
    else .ok (updateLedger led key .timeout dur now)
  | .ok =>
    match (if tgCond job c && outNonempty then tgSendRes w else .ok none) with
    | .error e => .error e
    | .ok _ =>
      match (if dcCond job c mapProvided && outNonempty then dcSendRes w chanKnown
             else .ok none) with
      | .error e => .error e
      | .ok _ => .ok (updateLedger led key .ok dur now)

-- ### Outbound message formatting (Telegram `sendAgentMessage`, Discord
-- `sendAgentMessage`)

/-- Telegram header: `🤖 *${agentName}* — _${jobName}_\n\n`. -/
def tgHeader (agentName jobName : List Char) : List Char :=
  "🤖 *".toList ++ agentName ++ "* — _".toList ++ jobName ++ "_\n\n".toList

/-- The message texts Telegram `sendAgentMessage` actually sends: a single
message, `(prefix + text).slice(0, 4096)`. -/
def tgSendTexts (agentName jobName text : List Char) : List (List Char) :=
  [(tgHeader agentName jobName ++ text).take 4096]

/-- Discord header: `**${agentName}** — _${jobName}_\n\n`. -/
def dcHeader (agentName jobName : List Char) : List Char :=
  "**".toList ++ agentName ++ "** — _".toList ++ jobName ++ "_\n\n".toList

/-- The chunk loop of Discord `sendAgentMessage`:
`for (let i = 0; i < fullText.length; i += 2000) chunks.push(slice(i, i+2000))`,
here fuel-indexed for structural recursion (fuel = remaining length). -/
def chunksGo : Nat → List Char → List (List Char)
  | 0, _ => []
  | _, [] => []
  | fuel + 1, c :: rest => (c :: rest).take 2000 :: chunksGo fuel ((c :: rest).drop 2000)

/-- The 2000-character chunks of a Discord message. -/
def dcChunks (full : List Char) : List (List Char) :=
  chunksGo full.length full

/-- The message texts Discord `sendAgentMessage` sends for a payload. -/
def dcSendTexts (agentName jobName text : List Char) : List (List Char) :=
  dcChunks (dcHeader agentName jobName ++ text)

-- ### Telegram message-routing map (`.telegram-messages.json`)

/-- The routing map as an entry list: message id with its entry timestamp
(ms since epoch, from `new Date(timestamp).getTime()`). -/
abbrev MsgMap : Type := List (String × Nat)

/-- Comparator order used by `saveMessageMap`'s sort: newest first
(`(a, b) => b.timestamp - a.timestamp` sorts descending by timestamp). -/
def newerEq (a b : String × Nat) : Prop := b.2 ≤ a.2

instance : DecidableRel newerEq := fun a b => Nat.decLe b.2 a.2

instance : IsTotal (String × Nat) newerEq :=
  ⟨fun a b => Nat.le_total b.2 a.2⟩

instance : IsTrans (String × Nat) newerEq :=
  ⟨fun _ _ _ hab hbc => Nat.le_trans hbc hab⟩

/-- `messageMap[msgId] = { agent, timestamp }`: overwrite an existing id in
place, else append. -/
def insertEntry (m : MsgMap) (id : String) (ts : Nat) : MsgMap :=
  if m.any (fun e => e.1 = id) then
    m.map (fun e => if e.1 = id then (id, ts) else e)
  else m ++ [(id, ts)]

/-- `saveMessageMap`: when more than 500 entries are held, keep only the 500
newest by timestamp (sort descending, take 500); otherwise persist as-is. -/
def saveMessageMap (m : MsgMap) : MsgMap :=
  if 500 < m.length then (List.insertionSort newerEq m).take 500 else m

/-- One outbound send as it touches the routing map: record the message id,
then `saveMessageMap()`. -/
def sendStep (m : MsgMap) (e : String × Nat) : MsgMap :=
  saveMessageMap (insertEntry m e.1 e.2)

/-- The routing map after a sequence of outbound sends. -/
def applySends (m : MsgMap) (sends : List (String × Nat)) : MsgMap :=
  sends.foldl sendStep m

-- ### Claim C1

/-- Concrete run refuting claim C1: the budget (3000 ms) is exhausted before
any completion marker appears, the captured output contains the job's
`suppressIfMatch` substring `"ALL_CLEAR"`, and `runJob` classifies the run
`suppressed`, not `timeout` — because `shouldSuppress` is tested before
`elapsed >= timeoutMs`. -/
def cLog1 : Nat → List Char := fun _ => "heartbeat: ALL_CLEAR nothing to do".toList

/-- Witness for `claim1_suppression_wins_on_timeout` at a concrete run. -/
def wLog1 : Nat → List Char := fun _ => "agent says STANDBY today".toList

-- ### Claim C5

/-- Concrete run refuting claim C5: the log contains the completion marker
from 1000 ms on — strictly before the 3000 ms budget elapses — but the first
poll tick fires with `elapsed = 3000 >= timeoutMs`, and the `elapsed >=
timeoutMs` test precedes any marker consideration in classification, so the
run is classified `timeout`. -/
def cLog5 : Nat → List Char := fun t => if 1000 ≤ t then marker else []

/-- Witness for `claim5_marker_observed_before_budget` at a concrete run. -/
def wLog5 : Nat → List Char := fun t => if 3000 ≤ t then "done\n".toList ++ marker else []

-- ### Claim C2

/-- Payload used to refute claim C2 on the Telegram adapter. -/
def bigText : List Char := List.replicate 5000 'a'

/-- The full formatted Telegram text for the refuting payload. -/
def tgCexFull : List Char := tgHeader "relay".toList "digest".toList ++ bigText

-- ### Claim C3

/-- Job and config for the claim C3 run: Telegram configured and enabled,
notification not opted out. -/
def job3 : Job := ⟨"digest", .cont, "p", none, none, none, none, none, none⟩

def cfg3 : ChannelsCfg := ⟨true, "tok", false, ""⟩

/-- The empty ledger. -/
def led0 : Ledger := fun _ => none

/-- Witness job/config: both channels configured and enabled. -/
def job3w : Job := ⟨"digest", .cont, "p", some true, some true, none, none, none, none⟩

def cfg3w : ChannelsCfg := ⟨true, "tok", true, "dtok"⟩

-- ### Claim C4

/-- Job and config for the claim C4 run: both channels configured, enabled,
and not opted out by the job. -/
def job4 : Job := ⟨"nightly", .cont, "p", some true, some true, none, none, none, none⟩

def cfg4 : ChannelsCfg := ⟨true, "t", true, "d"⟩

-- ### Claim C6

/-- Job/agent pair refuting claim C6: the job explicitly specifies
`timeout: 0` seconds. -/
def job6 : Job := ⟨"j", .fresh, "p", none, none, none, none, some 0, none⟩

def agent6 : Agent := ⟨"a", "~/w", none, some 50⟩

def job6w : Job := ⟨"j", .fresh, "p", none, none, none, none, some 30, none⟩

def job7 : Job := ⟨"j", .fresh, "p", none, none, none, none, none, some ""⟩

def agent7 : Agent := ⟨"a", "~/w", none, none⟩

def job7w : Job := ⟨"j", .cont, "p", none, none, none, none, none, some "Bash,Read"⟩

def agent7w : Agent := ⟨"a", "~/w", some "Read", none⟩

/-- An over-full routing map (501 entries) for the eviction witness. -/
def bigMap : MsgMap := (List.range 501).map (fun i => (toString i, i))

-- ## Theorems

-- ### Poll-loop lemmas

theorem completeAt_div_tick (logAt : Nat → List Char) (timeoutMs : Nat) :
    completeAt logAt timeoutMs (timeoutMs / pollMs) = true := by
  have h1 := Nat.div_add_mod timeoutMs pollMs
  have h2 : timeoutMs % pollMs < pollMs := Nat.mod_lt _ (by norm_num [pollMs])
  have h3 : timeoutMs ≤ (timeoutMs / pollMs + 1) * pollMs := by
    have : (timeoutMs / pollMs + 1) * pollMs = pollMs * (timeoutMs / pollMs) + pollMs := by ring
    omega
  simp [completeAt, h3]

theorem loopRun_completeAt (logAt : Nat → List Char) (timeoutMs : Nat) :
    ∀ fuel k d, d < fuel → completeAt logAt timeoutMs (k + d) = true →
      completeAt logAt timeoutMs (loopRun logAt timeoutMs fuel k) = true := by
  intro fuel
  induction fuel with
  | zero => intro k d hd _; omega
  | succ n ih =>
    intro k d hd hc
    by_cases hk : completeAt logAt timeoutMs k = true
    · simp [loopRun, hk]
    · have hd0 : d ≠ 0 := by
        intro h0; rw [h0, Nat.add_zero] at hc; exact hk hc
      obtain ⟨e, rfl⟩ := Nat.exists_eq_succ_of_ne_zero hd0
      have hc' : completeAt logAt timeoutMs ((k + 1) + e) = true := by
        have : (k + 1) + e = k + (e + 1) := by omega
        rw [this]; exact hc
      simp only [loopRun, hk, if_false, Bool.false_eq_true]
      exact ih (k + 1) e (by omega) hc'

theorem loopRun_not_before (logAt : Nat → List Char) (timeoutMs : Nat) :
    ∀ fuel k j, k ≤ j → j < loopRun logAt timeoutMs fuel k →
      completeAt logAt timeoutMs j = false := by
  intro fuel
  induction fuel with
  | zero =>
    intro k j hk hj
    simp only [loopRun] at hj; omega
  | succ n ih =>
    intro k j hk hj
    by_cases hc : completeAt logAt timeoutMs k = true
    · simp only [loopRun, hc, if_true] at hj; omega
    · simp only [loopRun, hc, if_false, Bool.false_eq_true] at hj
      rcases Nat.eq_or_lt_of_le hk with rfl | hlt
      · exact Bool.not_eq_true _ ▸ (by simpa using hc)
      · exact ih (k + 1) j hlt hj

theorem completeAt_stopTick (logAt : Nat → List Char) (timeoutMs : Nat) :
    completeAt logAt timeoutMs (stopTick logAt timeoutMs) = true := by
  have := loopRun_completeAt logAt timeoutMs (timeoutMs / pollMs + 1) 0 (timeoutMs / pollMs)
    (by omega) (by simpa using completeAt_div_tick logAt timeoutMs)
  simpa [stopTick] using this

theorem stopTick_le_of_completeAt (logAt : Nat → List Char) (timeoutMs j : Nat)
    (hj : completeAt logAt timeoutMs j = true) : stopTick logAt timeoutMs ≤ j := by
  by_contra hlt
  have := loopRun_not_before logAt timeoutMs (timeoutMs / pollMs + 1) 0 j (Nat.zero_le _)
    (by simpa [stopTick] using Nat.lt_of_not_le hlt)
  rw [hj] at this
  exact Bool.noConfusion this

-- ### Chunking lemmas

theorem chunkCount_step (len : Nat) (h : 1 ≤ len) :
    (len - 2000 + 1999) / 2000 + 1 = (len + 1999) / 2000 := by
  rcases Nat.le_total len 2000 with hle | hge
  · have h1 : len - 2000 + 1999 = 1999 := by omega
    have h2 : len + 1999 = (len - 1) + 2000 := by omega
    rw [h1, h2, Nat.add_div_right _ (by norm_num)]
    have h3 : (len - 1) / 2000 = 0 := Nat.div_eq_of_lt (by omega)
    have h4 : (1999 : Nat) / 2000 = 0 := by norm_num
    omega
  · have h1 : len - 2000 + 1999 = len - 1 := by omega
    have h2 : len + 1999 = (len - 1) + 2000 := by omega
    rw [h1, h2, Nat.add_div_right _ (by norm_num)]

theorem chunksGo_join : ∀ (fuel : Nat) (l : List Char), l.length ≤ fuel →
    (chunksGo fuel l).flatten = l := by
  intro fuel
  induction fuel with
  | zero =>
    intro l hl
    have : l = [] := List.eq_nil_of_length_eq_zero (by omega)
    subst this; rfl
  | succ n ih =>
    intro l hl
    match l with
    | [] => rfl
    | c :: rest =>
      have hd : ((c :: rest).drop 2000).length ≤ n := by
        simp only [List.length_drop, List.length_cons]
        simp only [List.length_cons] at hl
        omega
      simp only [chunksGo, List.flatten_cons, ih _ hd, List.take_append_drop]

theorem chunksGo_length : ∀ (fuel : Nat) (l : List Char), l.length ≤ fuel →
    (chunksGo fuel l).length = (l.length + 1999) / 2000 := by
  intro fuel
  induction fuel with
  | zero =>
    intro l hl
    have : l = [] := List.eq_nil_of_length_eq_zero (by omega)
    subst this; norm_num [chunksGo]
  | succ n ih =>
    intro l hl
    match l with
    | [] => norm_num [chunksGo]
    | c :: rest =>
      have hd : ((c :: rest).drop 2000).length ≤ n := by
        simp only [List.length_drop, List.length_cons]
        simp only [List.length_cons] at hl
        omega
      have h1 : 1 ≤ (c :: rest).length := by simp
      calc (chunksGo (n + 1) (c :: rest)).length
          = (chunksGo n ((c :: rest).drop 2000)).length + 1 := by
            simp [chunksGo]
        _ = ((c :: rest).length - 2000 + 1999) / 2000 + 1 := by
            rw [ih _ hd, List.length_drop]
        _ = ((c :: rest).length + 1999) / 2000 := chunkCount_step _ h1

theorem dcChunks_flatten (full : List Char) : (dcChunks full).flatten = full :=
  chunksGo_join full.length full (Nat.le_refl _)

theorem dcChunks_length (full : List Char) :
    (dcChunks full).length = (full.length + 1999) / 2000 :=
  chunksGo_length full.length full (Nat.le_refl _)

-- ### Ledger lemmas

theorem runCountOf_updateLedger (led : Ledger) (key : String) (st : Status)
    (dur : Nat) (now : String) :
    runCountOf (updateLedger led key st dur now) key = runCountOf led key + 1 := by
  unfold runCountOf updateLedger
  simp only [if_pos rfl]
  cases led key <;> simp

theorem applyRuns_runCount (key : String) :
    ∀ (runs : List (Status × Nat × String)) (led : Ledger),
      runCountOf (applyRuns led key runs) key = runCountOf led key + runs.length := by
  intro runs
  induction runs with
  | nil => intro led; simp [applyRuns]
  | cons r rs ih =>
    intro led
    simp only [applyRuns, ih, runCountOf_updateLedger, List.length_cons]
    omega

-- ### Message-map lemmas

theorem length_insertEntry (m : MsgMap) (id : String) (ts : Nat) :
    (insertEntry m id ts).length ≤ m.length + 1 := by
  unfold insertEntry
  split
  · simp
  · simp

theorem length_saveMessageMap (m : MsgMap) (h : m.length ≤ 501) :
    (saveMessageMap m).length ≤ 500 := by
  unfold saveMessageMap
  split
  · simp
  · omega

theorem sendStep_bound (m : MsgMap) (e : String × Nat) (h : m.length ≤ 500) :
    (sendStep m e).length ≤ 500 :=
  length_saveMessageMap _ (by have := length_insertEntry m e.1 e.2; omega)

theorem applySends_bound (sends : List (String × Nat)) :
    ∀ m : MsgMap, m.length ≤ 500 → (applySends m sends).length ≤ 500 := by
  induction sends with
  | nil => intro m h; exact h
  | cons e es ih =>
    intro m h
    exact ih _ (sendStep_bound m e h)

theorem saveMessageMap_evict (m : MsgMap) (h : 500 < m.length) :
    ∀ x ∈ saveMessageMap m, ∀ y ∈ m, y ∉ saveMessageMap m → y.2 ≤ x.2 := by
  intro x hx y hym hyn
  have hsave : saveMessageMap m = (List.insertionSort newerEq m).take 500 := by
    unfold saveMessageMap; rw [if_pos h]
  rw [hsave] at hx hyn
  have hsorted : List.Sorted newerEq (List.insertionSort newerEq m) :=
    List.sorted_insertionSort newerEq m
  have hys : y ∈ List.insertionSort newerEq m := (List.mem_insertionSort newerEq).mpr hym
  have hyd : y ∈ (List.insertionSort newerEq m).drop 500 := by
    rcases List.mem_append.mp
        (show y ∈ (List.insertionSort newerEq m).take 500
              ++ (List.insertionSort newerEq m).drop 500 by
          rw [List.take_append_drop]; exact hys) with hy1 | hy2
    · exact absurd hy1 hyn
    · exact hy2
  exact hsorted.rel_of_mem_take_of_mem_drop hx hyd

/-- Claim C1 is false on the code: a run whose timeout budget is exhausted
before the marker is observed (no marker ever appears in the log) but whose
captured output contains `suppressIfMatch` is classified `suppressed`, not
`timeout`. -/
theorem claim1_counterexample :
    containsSub (cLog1 (stopElapsed cLog1 3000)) marker = false
    ∧ 3000 ≤ stopElapsed cLog1 3000
    ∧ runOutcome cLog1 3000 (some "ALL_CLEAR") = Status.suppressed := by decide

/-- Claim C1 (amended): on a run whose poll loop stops without the completion
marker in the log (the timeout-budget arm of `isComplete` fired), the
classification is `suppressed` whenever `shouldSuppress` matches the captured
output, and `timeout` only otherwise: suppression is evaluated first, even on
timed-out runs. -/
theorem claim1_suppression_wins_on_timeout (logAt : Nat → List Char) (timeoutMs : Nat)
    (sifm : Option String)
    (hmk : containsSub (logAt (stopElapsed logAt timeoutMs)) marker = false) :
    runOutcome logAt timeoutMs sifm =
      (if shouldSuppress sifm (capturedOutput logAt timeoutMs) then Status.suppressed
       else Status.timeout) := by
  have hc := completeAt_stopTick logAt timeoutMs
  unfold completeAt at hc
  rw [show (stopTick logAt timeoutMs + 1) * pollMs = stopElapsed logAt timeoutMs from rfl,
    hmk] at hc
  simp only [Bool.false_or, decide_eq_true_eq] at hc
  unfold runOutcome
  by_cases hs : shouldSuppress sifm (capturedOutput logAt timeoutMs) = true
  · simp [hs]
  · simp only [Bool.not_eq_true] at hs
    simp [hs, hc]

theorem claim1_witness :
    containsSub (wLog1 (stopElapsed wLog1 3000)) marker = false
    ∧ runOutcome wLog1 3000 (some "STANDBY") =
        (if shouldSuppress (some "STANDBY") (capturedOutput wLog1 3000) then Status.suppressed
         else Status.timeout) :=
  ⟨by decide, claim1_suppression_wins_on_timeout wLog1 3000 (some "STANDBY") (by decide)⟩

theorem claim5_counterexample :
    containsSub (cLog5 1000) marker = true
    ∧ 1000 < 3000
    ∧ runOutcome cLog5 3000 none = Status.timeout := by decide

/-- Claim C5 (amended): if the completion marker is present in the log at
some poll tick at which the accumulated `elapsed` counter is still strictly
below the timeout budget, the run is classified `ok` or `suppressed`, never
`timeout`.  (As originally stated — marker merely present in the log file at
some instant strictly before the budget elapses — the claim fails, because a
marker appearing after the last sub-budget poll is only observed at a tick
where `elapsed >= timeoutMs`; see `claim5_counterexample`.) -/
theorem claim5_marker_observed_before_budget (logAt : Nat → List Char) (timeoutMs : Nat)
    (sifm : Option String)
    (h : ∃ k, (k + 1) * pollMs < timeoutMs
        ∧ containsSub (logAt ((k + 1) * pollMs)) marker = true) :
    runOutcome logAt timeoutMs sifm = Status.ok
      ∨ runOutcome logAt timeoutMs sifm = Status.suppressed := by
  obtain ⟨k, hk, hm⟩ := h
  have hck : completeAt logAt timeoutMs k = true := by simp [completeAt, hm]
  have hle := stopTick_le_of_completeAt logAt timeoutMs k hck
  have hlt : stopElapsed logAt timeoutMs < timeoutMs := by
    have hmul : (stopTick logAt timeoutMs + 1) * pollMs ≤ (k + 1) * pollMs :=
      Nat.mul_le_mul_right _ (by omega)
    unfold stopElapsed
    omega
  unfold runOutcome
  by_cases hs : shouldSuppress sifm (capturedOutput logAt timeoutMs) = true
  · right; simp [hs]
  · left
    simp only [Bool.not_eq_true] at hs
    simp [hs, Nat.not_le.mpr hlt]

theorem claim5_witness :
    ((0 + 1) * pollMs < 10000 ∧ containsSub (wLog5 ((0 + 1) * pollMs)) marker = true)
    ∧ (runOutcome wLog5 10000 none = Status.ok
        ∨ runOutcome wLog5 10000 none = Status.suppressed) :=
  ⟨⟨by decide, by decide⟩,
    claim5_marker_observed_before_budget wLog5 10000 none ⟨0, by decide, by decide⟩⟩

-- ### Claim C10

/-- Claim C10: an empty `suppressIfMatch` never triggers suppression — the
empty string is JS-falsy, so `job.suppressIfMatch && output.includes(...)`
short-circuits to falsy and the run is classified exactly as if the field
were unset, even though `""` is a substring of every output. -/
theorem claim10_empty_suppress_never_triggers (logAt : Nat → List Char) (timeoutMs : Nat) :
    runOutcome logAt timeoutMs (some "") = runOutcome logAt timeoutMs none
    ∧ runOutcome logAt timeoutMs (some "") ≠ Status.suppressed := by
  have hs : shouldSuppress (some "") (capturedOutput logAt timeoutMs) = false := rfl
  have hn : shouldSuppress none (capturedOutput logAt timeoutMs) = false := rfl
  unfold runOutcome
  rw [hs, hn]
  constructor
  · rfl
  · by_cases ht : timeoutMs ≤ stopElapsed logAt timeoutMs <;> simp [ht]

/-- Claim C2 is false on the code for the Telegram adapter: for a formatted
text of length L = 5022 > 4096, `sendAgentMessage` sends a single message of
`(prefix + text).slice(0, 4096)` — 1 chunk, not `ceil(L/4096) = 2` — and the
concatenation of what is sent does not reproduce the original text (all
characters beyond position 4096 are dropped). -/
theorem claim2_counterexample :
    4096 < tgCexFull.length
    ∧ (tgSendTexts "relay".toList "digest".toList bigText).length = 1
    ∧ (tgCexFull.length + 4095) / 4096 = 2
    ∧ (tgSendTexts "relay".toList "digest".toList bigText).flatten ≠ tgCexFull := by
  have hhdr : (tgHeader "relay".toList "digest".toList).length = 22 := by decide
  have hbig : bigText.length = 5000 := by
    unfold bigText; rw [List.length_replicate]
  have hlen : tgCexFull.length = 5022 := by
    unfold tgCexFull
    rw [List.length_append, hhdr, hbig]
  refine ⟨by omega, rfl, by omega, ?_⟩
  intro hcontra
  have hlen2 := congrArg List.length hcontra
  simp only [tgSendTexts, List.flatten_cons, List.flatten_nil, List.append_nil,
    List.length_take] at hlen2
  rw [show tgHeader "relay".toList "digest".toList ++ bigText = tgCexFull from rfl] at hlen2
  omega

/-- Claim C2 (amended): the Discord adapter chunks as claimed — the formatted
text (header plus body) is split into `ceil(L/2000)` chunks whose in-order
concatenation reproduces it exactly — but the Telegram adapter does not
chunk at all: it sends exactly one message holding the first 4096 characters
of the formatted text, silently dropping the rest. -/
theorem claim2_chunking_behavior (agentName jobName text : List Char) :
    tgSendTexts agentName jobName text
        = [(tgHeader agentName jobName ++ text).take 4096]
    ∧ (dcSendTexts agentName jobName text).flatten = dcHeader agentName jobName ++ text
    ∧ (dcSendTexts agentName jobName text).length
        = ((dcHeader agentName jobName ++ text).length + 1999) / 2000 :=
  ⟨rfl, dcChunks_flatten _, dcChunks_length _⟩

/-- Claim C3 is false on the code: on an `ok` run with non-empty output and
Telegram notification due, a transport-level send failure (the `fetch` inside
`apiCall` rejects) propagates out of the polling callback before the ledger
code runs, so no ledger update happens at all (the run ends exceptionally
instead of persisting `lastRun`/`runCount`). -/
theorem claim3_counterexample :
    tgCond job3 cfg3 = true
    ∧ runJobPersist .ok job3 cfg3 false false true ⟨false, true, true⟩ led0 "a/digest" 5 "now"
        = .error () :=
  ⟨by decide, rfl⟩

/-- Claim C3 (amended): an API-level channel failure is indeed swallowed and
never prevents the ledger update — a Telegram error response (`result.ok`
false, any `tgApiOk`) or a missing Discord channel-map entry still ends with
the full ledger update — but only as long as no send throws: when the
Telegram `fetch` resolves and Discord REST calls return ok, the run always
persists the updated ledger entry, for every classification. -/
theorem claim3_ledger_update_unless_throw (st : Status) (job : Job) (c : ChannelsCfg)
    (mapProvided chanKnown outNonempty : Bool) (w : SendWorld) (led : Ledger)
    (key : String) (dur : Nat) (now : String)
    (htg : w.tgTransportOk = true) (hdc : w.dcHttpOk = true) :
    runJobPersist st job c mapProvided chanKnown outNonempty w led key dur now
      = .ok (updateLedger led key st dur now) := by
  have h1 : tgSendRes w = .ok (if w.tgApiOk then some "msgid" else none) := by
    simp [tgSendRes, htg]
  have h2 : ∀ b, dcSendRes w b = .ok (if !b then none else some "msgid") := by
    intro b; cases b <;> simp [dcSendRes, hdc]
  cases st with
  | suppressed => rfl
  | timeout =>
    by_cases hcnd : tgCond job c = true
    · simp [runJobPersist, hcnd, h1]
    · simp only [Bool.not_eq_true] at hcnd
      simp [runJobPersist, hcnd]
  | ok =>
    cases htgc : (tgCond job c && outNonempty) <;>
      cases hdcc : (dcCond job c mapProvided && outNonempty) <;>
        simp [runJobPersist, htgc, hdcc, h1, h2]

theorem claim3_witness :
    (⟨true, false, true⟩ : SendWorld).tgTransportOk = true
    ∧ (⟨true, false, true⟩ : SendWorld).dcHttpOk = true
    ∧ runJobPersist .ok job3w cfg3w true true true ⟨true, false, true⟩ led0 "a/digest" 7 "now"
        = .ok (updateLedger led0 "a/digest" .ok 7 "now") :=
  ⟨rfl, rfl,
    claim3_ledger_update_unless_throw .ok job3w cfg3w true true true ⟨true, false, true⟩
      led0 "a/digest" 7 "now" rfl rfl⟩

/-- Claim C4 is false on the code: on a run classified `timeout` with Discord
fully configured and enabled for the job, the timeout branch of `runJob`
notifies only Telegram — no Discord timeout message exists in the code. -/
theorem claim4_counterexample :
    runOutcome (fun _ => []) 3000 none = Status.timeout
    ∧ dcCond job4 cfg4 true = true
    ∧ Chan.discord ∉ notifChans (runOutcome (fun _ => []) 3000 none) job4 cfg4 true true := by
  decide

/-- Claim C4 (amended): on a run classified `timeout`, only the Telegram
channel is notified (exactly one timeout message when its guard holds);
Discord is never notified on timeout regardless of its configuration; the
ledger entry's status is set to `timeout`. -/
theorem claim4_timeout_notifies_telegram_only (logAt : Nat → List Char) (timeoutMs : Nat)
    (sifm : Option String) (job : Job) (c : ChannelsCfg) (mapProvided outNonempty : Bool)
    (led : Ledger) (key : String) (dur : Nat) (now : String)
    (h : runOutcome logAt timeoutMs sifm = Status.timeout) :
    Chan.discord ∉ notifChans (runOutcome logAt timeoutMs sifm) job c mapProvided outNonempty
    ∧ (tgCond job c = true →
        notifChans (runOutcome logAt timeoutMs sifm) job c mapProvided outNonempty
          = [Chan.telegram])
    ∧ ((updateLedger led key (runOutcome logAt timeoutMs sifm) dur now) key).map
        JobState.lastStatus = some (some Status.timeout) := by
  rw [h]
  refine ⟨?_, ?_, ?_⟩
  · by_cases hcnd : tgCond job c = true
    · simp [notifChans, hcnd]
    · simp only [Bool.not_eq_true] at hcnd
      simp [notifChans, hcnd]
  · intro hcnd; simp [notifChans, hcnd]
  · simp [updateLedger]

theorem claim4_witness :
    runOutcome (fun _ => []) 4000 none = Status.timeout
    ∧ (Chan.discord ∉ notifChans (runOutcome (fun _ => []) 4000 none) job4 cfg4 true true
      ∧ (tgCond job4 cfg4 = true →
          notifChans (runOutcome (fun _ => []) 4000 none) job4 cfg4 true true
            = [Chan.telegram])
      ∧ ((updateLedger led0 "a/nightly" (runOutcome (fun _ => []) 4000 none) 4 "now")
            "a/nightly").map JobState.lastStatus = some (some Status.timeout)) :=
  ⟨by decide,
    claim4_timeout_notifies_telegram_only (fun _ => []) 4000 none job4 cfg4 true true
      led0 "a/nightly" 4 "now" (by decide)⟩

/-- Claim C6 is false on the code: a job that specifies `timeout: 0` does
not get a 0-second budget — `0` is JS-falsy, so `job.timeout ||
agent.timeout || 120` falls through to the agent default (50 here). -/
theorem claim6_counterexample :
    job6.timeout = some 0
    ∧ effTimeoutSec job6 agent6 = 50
    ∧ effTimeoutSec job6 agent6 ≠ 0 := by decide

/-- Claim C6 (amended): the effective timeout budget is the job-level timeout
when the job specifies a nonzero one, else the agent-level default when the
agent specifies a nonzero one, else the global 120-second default; a
specified value of 0 is treated as unspecified (JS `||` falsiness). -/
theorem claim6_timeout_layering (job : Job) (agent : Agent) :
    (∀ t, job.timeout = some t → t ≠ 0 → effTimeoutSec job agent = t)
    ∧ ((job.timeout = none ∨ job.timeout = some 0) →
        ∀ t, agent.timeout = some t → t ≠ 0 → effTimeoutSec job agent = t)
    ∧ ((job.timeout = none ∨ job.timeout = some 0) →
        (agent.timeout = none ∨ agent.timeout = some 0) →
        effTimeoutSec job agent = 120) := by
  refine ⟨?_, ?_, ?_⟩
  · intro t ht hnz
    simp [effTimeoutSec, jsOrNum, ht, hnz]
  · rintro (hj | hj) t ht hnz <;> simp [effTimeoutSec, jsOrNum, hj, ht, hnz]
  · rintro (hj | hj) (ha | ha) <;> simp [effTimeoutSec, jsOrNum, hj, ha]

theorem claim6_witness :
    job6w.timeout = some 30 ∧ (30 : Nat) ≠ 0 ∧ effTimeoutSec job6w agent6 = 30 :=
  ⟨rfl, by decide, (claim6_timeout_layering job6w agent6).1 30 rfl (by decide)⟩

-- ### Claim C7

theorem toList_isEmpty_iff (s : String) : s.toList.isEmpty = true ↔ s = "" := by
  cases s with
  | mk data =>
    cases data with
    | nil => simp [String.toList]
    | cons c cs =>
      simp only [String.toList, List.isEmpty_cons, String.ext_iff]
      constructor
      · intro h; exact absurd h (by decide)
      · intro h; exact absurd h (by simp)

/-- Job/agent pair refuting claim C7: the job specifies an allowlist — the
empty string — yet no `--allowedTools` flag is emitted, because `""` is
JS-falsy in `if (job.allowedTools || agent.allowedTools)`. -/
theorem jsTruthyStr_of_ne (s : String) (h : s ≠ "") : jsTruthyStr (some s) = true := by
  cases hemp : s.toList.isEmpty with
  | false =>
    show (!s.toList.isEmpty) = true
    rw [hemp]
    rfl
  | true => exact absurd ((toList_isEmpty_iff s).mp hemp) h

/-- Claim C7 is false on the code: a job whose `allowedTools` is the empty
string counts as specifying an allowlist, but the built argument list has no
`--allowedTools` flag. -/
theorem claim7_counterexample :
    job7.allowedTools = some ""
    ∧ "--allowedTools" ∉ buildArgs "p" job7 agent7 := by decide

/-- Claim C7 (amended): the argument list contains `--continue` iff the job's
mode is `continue`; it contains `--allowedTools` iff the job or its agent
specifies a non-empty allowlist (JS truthiness: `""` and absence both count
as unspecified), and then the value is the job's allowlist when it is
non-empty, else the agent's.  The prompt is assumed not to collide with the
literal flag strings (it occupies a value position in the real argv). -/
theorem claim7_flag_construction (prompt : String) (job : Job) (agent : Agent)
    (hp1 : prompt ≠ "--continue") (hp2 : prompt ≠ "--allowedTools")
    (hv : ∀ s, effAllow job.allowedTools agent.allowedTools = some s → s ≠ "--continue") :
    ("--continue" ∈ buildArgs prompt job agent ↔ job.mode = JobMode.cont)
    ∧ ("--allowedTools" ∈ buildArgs prompt job agent
        ↔ effAllow job.allowedTools agent.allowedTools ≠ none)
    ∧ (∀ s, job.allowedTools = some s → s ≠ "" →
        effAllow job.allowedTools agent.allowedTools = some s)
    ∧ ((job.allowedTools = none ∨ job.allowedTools = some "") →
        ∀ s, agent.allowedTools = some s → s ≠ "" →
          effAllow job.allowedTools agent.allowedTools = some s) := by
  refine ⟨?_, ?_, ?_, ?_⟩
  · cases hm : job.mode with
    | cont => simp [buildArgs, hm]
    | fresh =>
      rcases heq : effAllow job.allowedTools agent.allowedTools with _ | v
      · simp [buildArgs, hm, heq, Ne.symm hp1]
      · simp [buildArgs, hm, heq, Ne.symm hp1, Ne.symm (hv v heq)]
  · cases hm : job.mode <;>
      rcases heq : effAllow job.allowedTools agent.allowedTools with _ | v <;>
        simp [buildArgs, hm, heq, Ne.symm hp2]
  · intro s hs hne
    have ht : jsTruthyStr (some s) = true := jsTruthyStr_of_ne s hne
    rw [hs]
    simp [effAllow, ht]
  · intro hj s hs hne
    have htj : jsTruthyStr job.allowedTools = false := by
      rcases hj with hj | hj <;> rw [hj] <;> decide
    have hta : jsTruthyStr (some s) = true := jsTruthyStr_of_ne s hne
    rw [hs]
    simp [effAllow, htj, hta]

theorem claim7_witness :
    ("p" ≠ "--continue" ∧ "p" ≠ "--allowedTools"
      ∧ (∀ s, effAllow job7w.allowedTools agent7w.allowedTools = some s → s ≠ "--continue"))
    ∧ (("--continue" ∈ buildArgs "p" job7w agent7w ↔ job7w.mode = JobMode.cont)
      ∧ ("--allowedTools" ∈ buildArgs "p" job7w agent7w
          ↔ effAllow job7w.allowedTools agent7w.allowedTools ≠ none)
      ∧ (∀ s, job7w.allowedTools = some s → s ≠ "" →
          effAllow job7w.allowedTools agent7w.allowedTools = some s)
      ∧ ((job7w.allowedTools = none ∨ job7w.allowedTools = some "") →
          ∀ s, agent7w.allowedTools = some s → s ≠ "" →
            effAllow job7w.allowedTools agent7w.allowedTools = some s)) :=
  ⟨⟨by decide, by decide, by decide⟩,
    claim7_flag_construction "p" job7w agent7w (by decide) (by decide) (by decide)⟩

-- ### Claim C8

/-- Claim C8: every completed invocation — regardless of classification —
increments the job's `runCount` by exactly one; after N completed invocations
the recorded `runCount` equals its prior value plus N. -/
theorem claim8_runCount_increments :
    (∀ (led : Ledger) (key : String) (st : Status) (dur : Nat) (now : String),
      runCountOf (updateLedger led key st dur now) key = runCountOf led key + 1)
    ∧ (∀ (led : Ledger) (key : String) (runs : List (Status × Nat × String)),
      runCountOf (applyRuns led key runs) key = runCountOf led key + runs.length) :=
  ⟨runCountOf_updateLedger, fun led key runs => applyRuns_runCount key runs led⟩

-- ### Claim C9

/-- Claim C9: starting from any routing map within the 500-entry bound, the
map still holds at most 500 entries after arbitrarily many outbound sends
(each send records its message id and then runs `saveMessageMap`), and
whenever `saveMessageMap` evicts entries, every evicted entry's timestamp is
at most every kept entry's timestamp (the newest entries are kept). -/
theorem claim9_map_bound_and_eviction :
    (∀ (m0 : MsgMap) (sends : List (String × Nat)), m0.length ≤ 500 →
      (applySends m0 sends).length ≤ 500)
    ∧ (∀ m : MsgMap, 500 < m.length →
      ∀ x ∈ saveMessageMap m, ∀ y ∈ m, y ∉ saveMessageMap m → y.2 ≤ x.2) :=
  ⟨fun m0 sends h => applySends_bound sends m0 h, saveMessageMap_evict⟩

theorem claim9_witness :
    (([] : MsgMap).length ≤ 500
      ∧ (applySends [] [("10", 5), ("11", 9), ("10", 12)]).length ≤ 500)
    ∧ (500 < bigMap.length
      ∧ ∀ x ∈ saveMessageMap bigMap, ∀ y ∈ bigMap, y ∉ saveMessageMap bigMap → y.2 ≤ x.2) :=
  ⟨⟨by decide,
      claim9_map_bound_and_eviction.1 [] [("10", 5), ("11", 9), ("10", 12)] (by decide)⟩,
    ⟨by simp [bigMap], claim9_map_bound_and_eviction.2 bigMap (by simp [bigMap])⟩⟩

theorem claim2_witness :
    tgSendTexts "a".toList "b".toList "hi".toList
        = [(tgHeader "a".toList "b".toList ++ "hi".toList).take 4096]
    ∧ (dcSendTexts "a".toList "b".toList "hi".toList).flatten
        = dcHeader "a".toList "b".toList ++ "hi".toList
    ∧ (dcSendTexts "a".toList "b".toList "hi".toList).length
        = ((dcHeader "a".toList "b".toList ++ "hi".toList).length + 1999) / 2000 :=
  claim2_chunking_behavior "a".toList "b".toList "hi".toList

theorem claim8_witness :
    runCountOf (updateLedger led0 "a/j" Status.suppressed 1 "t") "a/j"
        = runCountOf led0 "a/j" + 1
    ∧ runCountOf
        (applyRuns led0 "a/j"
          [(Status.ok, 1, "t"), (Status.timeout, 2, "u"), (Status.suppressed, 3, "v")]) "a/j"
      = runCountOf led0 "a/j"
          + [(Status.ok, 1, "t"), (Status.timeout, 2, "u"), (Status.suppressed, 3, "v")].length :=
  ⟨claim8_runCount_increments.1 led0 "a/j" Status.suppressed 1 "t",
    claim8_runCount_increments.2 led0 "a/j"
      [(Status.ok, 1, "t"), (Status.timeout, 2, "u"), (Status.suppressed, 3, "v")]⟩

theorem claim10_witness :
    runOutcome (fun _ => "nothing to report".toList) 3000 (some "")
        = runOutcome (fun _ => "nothing to report".toList) 3000 none
    ∧ runOutcome (fun _ => "nothing to report".toList) 3000 (some "") ≠ Status.suppressed :=
  claim10_empty_suppress_never_triggers (fun _ => "nothing to report".toList) 3000
